import Mathlib

/-!
# ratel: the embedded asset serving gateway (`server/server.go`)

A shallow embedding of `server.go` and theorems about it.

Conventions of the embedding.

* A Go `string` and a Go `[]byte` are both modelled by a Lean `String`; the
  conversions `string(bs)` and `buf.Bytes()` keep the contents, so they are the
  identity here.
* The package-level variables `devMode`, `addr`, `port`, `indexContent` are the
  record `Globals`; a function that may assign them takes the record and
  returns the record it leaves behind.
* The generated asset bundle (`Asset`, `AssetInfo`) and the template engine
  (`html/template`) are parameters: `AssetSource` and `TemplateEngine`.
* What a handler does to its `http.ResponseWriter` is the one `net/http` call it
  makes, recorded as an `Action`, next to the list of lookups it made in the
  asset bundle; `Action.respond` is the response `net/http` writes for that
  call.
* What `Run` does to the outside world is a list of `Event`s in program order.
-/

namespace Ratel

/-! ## Constants of `server.go` -/

def ratelVersion : String := "1.0.0"

def defaultPort : Int := 8081

def defaultAddr : String := ""

def clientBuildStaticPath : String := "./client/build/static"

def indexPath : String := "index.html"

/-- The constant `http.StatusNotFound`. -/
def StatusNotFound : Nat := 404

/-! ## Data -/

/-- A `time.Time`, as a count of nanoseconds. -/
abbrev Time := Int

/-- The `os.FileInfo` that `AssetInfo` returns, reduced to the two methods
`server.go` calls on it: `Name()` and `ModTime()`. -/
structure FileInfo where
  Name : String
  ModTime : Time
  deriving DecidableEq

/-- The struct `content`, with the three fields `setIndexContent` fills in
(`server.go` lines 98-102). -/
structure content where
  name : String
  modTime : Time
  bs : String
  deriving DecidableEq

/-- The package-level variables of `server.go` (lines 25-31); `indexContent`
is a pointer, `none` being `nil`. -/
structure Globals where
  devMode : Bool
  addr : String
  port : Int
  indexContent : Option content
  deriving DecidableEq

/-- The variables before `Run`: Go's zero values. -/
def Globals.zero : Globals := ⟨false, "", 0, none⟩

/-- The asset bundle: the generated functions `Asset` and `AssetInfo`, each
returning a value or an error (the error's text). -/
structure AssetSource where
  Asset : String → Except String String
  AssetInfo : String → Except String FileInfo

/-- The part of `html/template` that `setIndexContent` calls, over a type `T`
of parsed templates: `Parse name text` is `template.New(name).Parse(text)`, and
`Execute tmpl data` is `tmpl.Execute(buf, data)` followed by `buf.Bytes()` when
it returns no error. -/
structure TemplateEngine (T : Type) where
  Parse : String → String → Except String T
  Execute : T → String → Except String String

/-- The fields of `*url.URL` a request carries. -/
structure URL where
  Path : String
  RawQuery : String
  Fragment : String
  deriving DecidableEq

/-- An `*http.Request`: method, URL and headers. -/
structure Request where
  Method : String
  URL : URL
  Header : List (String × String)
  deriving DecidableEq

/-- A lookup in the asset bundle. -/
inductive Lookup where
  | Asset (name : String)
  | AssetInfo (name : String)
  deriving DecidableEq

/-- The call `mainHandler` ends with.
* `serve c r` is `indexContent.serve(w, r)`, `c` being the pointer `indexContent`;
* `Error msg code` is `http.Error(w, msg, code)`;
* `ServeContent r name modtime content` is
  `http.ServeContent(w, r, name, modtime, content)`. -/
inductive Action where
  | serve (c : Option content) (r : Request)
  | Error (msg : String) (code : Nat)
  | ServeContent (r : Request) (name : String) (modtime : Time) (content : String)
  deriving DecidableEq

/-- What one run of a handler leaves: its call on the response writer, the
lookups it made in the asset bundle, in order, and the package-level
variables after it. -/
structure Handled where
  action : Action
  lookups : List Lookup
  globals : Globals
  deriving DecidableEq

/-! ## Library functions used by `server.go` -/

/-- Go's `strings.HasPrefix`. -/
def HasPrefix (s pre : String) : Bool := pre.data.isPrefixOf s.data

/-- The slice expression `s[n:]`. `server.go` uses it with `n = 1` on a string
that starts with the one-byte character `/`, where dropping one byte and
dropping one character are the same. -/
def sliceFrom (s : String) (n : Nat) : String := ⟨s.data.drop n⟩

/-- Modelled from the spec: `newBuffer` is not under `src/`. It wraps a byte
slice as the reader handed to the Content Responder; by section 4.3 step 4 the
Responder receives "the looked-up bytes", so the reader holds the slice as it
is. -/
def newBuffer (bs : String) : String := bs

/-- Modelled from the spec: the method `serve` of `content` is not under
`src/`. By section 4.3 step 2 it "delegates to the Content Responder using the
cached RenderedIndex": the record's name, modification time and bytes go to
`http.ServeContent`. -/
def content.serve (c : content) (r : Request) : Action :=
  .ServeContent r c.name c.modTime (newBuffer c.bs)

/-- The call that reaches `net/http`: `indexContent.serve(w, r)` unfolded by
`content.serve`; `none` when the receiver is `nil` (the method dereferences
it). -/
def Action.delegate : Action → Option Action
  | .serve none _ => none
  | .serve (some c) r => some (c.serve r)
  | a => some a

/-- The bytes handed to the Content Responder, from which it writes the
response body; `none` when the handler serves no content (`http.Error`, or a
`nil` receiver). -/
def Action.servedBytes (a : Action) : Option String :=
  match a.delegate with
  | some (.ServeContent _ _ _ bs) => some bs
  | _ => none

/-! ## What `net/http` writes for the handler's call

`http.Error` and `http.ServeContent` belong to Go's standard library
(`net/http`: `server.go`, `fs.go`). -/

/-- A response as the client receives it: status code and body. -/
structure Response where
  status : Nat
  body : String
  deriving DecidableEq

/-- The constant `http.StatusOK`. -/
def StatusOK : Nat := 200

/-- The function `http.Error`: it writes the status code and then the message
with `fmt.Fprintln`, that is, followed by a newline. -/
def httpError (msg : String) (code : Nat) : Response := ⟨code, msg ++ "\n"⟩

/-- The request headers (under their canonical names, as `net/http` stores
them) on which `http.ServeContent` may answer something else than the whole
content: a precondition failure, "not modified", or a part of the content. -/
def negotiationHeaders : List String :=
  ["If-Match", "If-Unmodified-Since", "If-None-Match", "If-Modified-Since", "Range"]

/-- Whether the request carries one of the `negotiationHeaders`. -/
def Request.negotiates (r : Request) : Bool :=
  r.Header.any fun kv => negotiationHeaders.contains kv.1

/-- The part of `net/http` left open: what `http.ServeContent` answers to a
request that carries one of the `negotiationHeaders`. It reads the method and
the headers of the request, not its URL. -/
structure NetHTTP where
  negotiate : String → List (String × String) → String → Time → String → Response

/-- The function `http.ServeContent`. Without a precondition or range header
it answers 200 and copies the whole content to the body, unless the method is
`HEAD`, where it writes the headers only. -/
def ServeContent (lib : NetHTTP) (r : Request) (name : String) (modtime : Time)
    (content : String) : Response :=
  if r.negotiates then lib.negotiate r.Method r.Header name modtime content
  else if r.Method = "HEAD" then ⟨StatusOK, ""⟩
  else ⟨StatusOK, content⟩

/-- The response the handler's call produces; `none` when `serve` is called
on a `nil` receiver and no response is written. -/
def Action.respond (lib : NetHTTP) (a : Action) : Option Response :=
  match a.delegate with
  | some (.ServeContent r name modtime content) =>
    some (Ratel.ServeContent lib r name modtime content)
  | some (.Error msg code) => some (httpError msg code)
  | _ => none

/-! ## `mainHandler` (lines 105-129) -/

/-- The key `mainHandler` computes from the request (lines 106-109). -/
def normalize (path : String) : String :=
  if HasPrefix path "/" then sliceFrom path 1 else path

/-- The function `mainHandler`. -/
def mainHandler (A : AssetSource) (g : Globals) (r : Request) : Handled :=
  let path := r.URL.Path
  let path := if HasPrefix path "/" then sliceFrom path 1 else path
  if path = "" ∨ path = indexPath then
    ⟨.serve g.indexContent r, [], g⟩
  else
    match A.Asset path with
    | .error _ => ⟨.Error "resource not found" StatusNotFound, [.Asset path], g⟩
    | .ok bs =>
      match A.AssetInfo path with
      | .error _ =>
        ⟨.Error "resource not found" StatusNotFound, [.Asset path, .AssetInfo path], g⟩
      | .ok info =>
        ⟨.ServeContent r info.Name info.ModTime (newBuffer bs),
          [.Asset path, .AssetInfo path], g⟩

/-- The server handling a list of requests one after the other, each on the
variables its predecessor left. -/
def serveAll (A : AssetSource) : Globals → List Request → List Action × Globals
  | g, [] => ([], g)
  | g, r :: rs =>
    let h := mainHandler A g r
    let rest := serveAll A h.globals rs
    (h.action :: rest.1, rest.2)

/-! ## Startup: `parseFlags`, `setIndexContent`, `Run` (lines 33-103) -/

/-- How the process stops inside a function instead of returning from it:
`os.Exit(code)` or `panic(msg)` (`Panic`). -/
inductive Halt where
  | Exit (code : Nat)
  | Panic (msg : String)
  deriving DecidableEq

/-- The values of the four command-line flags after `flag.Parse()`
(lines 49-58). -/
structure Flags where
  dev : Bool
  p : Int
  addr : String
  version : Bool
  deriving DecidableEq

/-- A handler registered with `net/http`: `fileServer strip dir` is
`http.StripPrefix(strip, http.FileServer(http.Dir(dir)))`. -/
inductive Handler where
  | fileServer (strip : String) (dir : String)
  | mainHandler
  deriving DecidableEq

/-- What `Run` does to the outside world, in program order. -/
inductive Event where
  | Printf (text : String)
  | Handle (pattern : String) (h : Handler)
  | Println (text : String)
  | ListenAndServe (addr : String)
  | Fatalln (text : String)
  deriving DecidableEq

/-- Whether the event registers a handler or starts the listener. -/
def Event.serving : Event → Bool
  | .Handle _ _ => true
  | .ListenAndServe _ => true
  | _ => false

/-- What a startup function leaves: the package-level variables, what it did
to the outside world, and how it stopped the process if it did (`none` when it
returned or, for `Run`, when `ListenAndServe` never returns and the process
goes on serving). -/
structure Ran where
  globals : Globals
  events : List Event
  halt : Option Halt
  deriving DecidableEq

/-- The function `parseFlags` (lines 48-74) on the parsed flag values.
`validateAddr` is not under `src/` and is a parameter; like the Go function it
returns both a string and an error (`none` being `nil`), and line 66 assigns
the string to `addr` whatever the error is. -/
def parseFlags (validateAddr : String → String × Option String) (f : Flags) (g : Globals) :
    Ran :=
  if f.version then
    ⟨g, [.Printf ("Ratel Version: " ++ ratelVersion ++ "\n")], some (.Exit 0)⟩
  else
    match validateAddr f.addr with
    | (a, some err) =>
      ⟨{ g with addr := a },
        [.Printf ("Error parsing Dgraph server address: " ++ err ++ "\n")], some (.Exit 1)⟩
    | (a, none) => ⟨{ g with addr := a, devMode := f.dev, port := f.p }, [], none⟩

/-- The function `setIndexContent` (lines 76-103): the variables it leaves and
the panic it stopped with, if any. -/
def setIndexContent {T : Type} (E : TemplateEngine T) (A : AssetSource) (g : Globals) :
    Globals × Option Halt :=
  match A.Asset indexPath with
  | .error _ => (g, some (.Panic ("error retrieving \"" ++ indexPath ++ "\" asset")))
  | .ok bs =>
    match A.AssetInfo indexPath with
    | .error _ => (g, some (.Panic ("error retrieving \"" ++ indexPath ++ "\" asset info")))
    | .ok info =>
      match E.Parse indexPath bs with
      | .error _ => (g, some (.Panic ("error parsing \"" ++ indexPath ++ "\" contents")))
      | .ok tmpl =>
        match E.Execute tmpl g.addr with
        | .error _ => (g, some (.Panic ("error executing \"" ++ indexPath ++ "\" template")))
        | .ok out =>
          ({ g with indexContent := some ⟨info.Name, info.ModTime, out⟩ }, none)

/-- The function `Run` (lines 34-46). `listen a` is what
`http.ListenAndServe(a, nil)` does: `none` when it serves for ever, `some err`
when it returns, which it only does with an error (the listener could not
start, or stopped); line 45 then logs the error and exits with status 1. -/
def Run {T : Type} (validateAddr : String → String × Option String)
    (listen : String → Option String) (E : TemplateEngine T)
    (A : AssetSource) (f : Flags) (g : Globals) : Ran :=
  match parseFlags validateAddr f g with
  | ⟨g₁, out, some h⟩ => ⟨g₁, out, some h⟩
  | ⟨g₁, out, none⟩ =>
    match setIndexContent E A g₁ with
    | (g₂, some h) => ⟨g₂, out, some h⟩
    | (g₂, none) =>
      ⟨g₂,
        out
          ++ (if g₂.devMode then
                [.Handle "/cdn/static/" (.fileServer "/cdn/static/" clientBuildStaticPath)]
              else [])
          ++ [.Handle "/" .mainHandler,
              .Println ("Listening on port " ++ toString g₂.port ++ "..."),
              .ListenAndServe (":" ++ toString g₂.port)]
          ++ (match listen (":" ++ toString g₂.port) with
              | none => []
              | some err => [.Fatalln err]),
        (listen (":" ++ toString g₂.port)).map fun _ => .Exit 1⟩

/-! ## The template engine: `html/template` on the entry document

`server.go` imports `html/template` (line 7), not `text/template`: its
`Execute` writes the value of an action through an escaper chosen by the place
of the action in the document. The definitions below follow the Go standard
library (`html/template`: `escape.go`, `html.go`, `js.go`) for templates made
of literal text and actions `{{.}}`, executed on a string, and for three
places an action can sit in. The replacement tables are those of current Go
releases; the entries that matter for an address such as
`http://localhost:9080` (`/` in a script string, and letters, digits, `:` and
`.` left alone everywhere) are the same in every release. -/

/-- Where an action sits, as the escape pass of `html/template` classifies it
(the `state` of its `context`):
* `stateText`: in HTML text, outside any tag;
* `stateAttr`: inside the quoted value of an attribute that holds plain text;
* `stateJSDqStr`: inside a double-quoted string literal of a `<script>` element. -/
inductive context where
  | stateText
  | stateAttr
  | stateJSDqStr
  deriving DecidableEq

/-- A node of a parsed and escaped template: literal text, or the action
`{{.}}` with the context the escape pass found it in. -/
inductive Node where
  | TextNode (text : String)
  | ActionNode (c : context)
  deriving DecidableEq

/-- The table `htmlReplacementTable` of `html/template`: the characters
`htmlEscaper` and `attrEscaper` replace in a plain string. -/
def htmlReplacementTable (c : Char) : Option String :=
  match c.toNat with
  | 0 => some "\uFFFD"
  | 34 => some "&#34;"
  | 38 => some "&amp;"
  | 39 => some "&#39;"
  | 43 => some "&#43;"
  | 60 => some "&lt;"
  | 62 => some "&gt;"
  | _ => none

/-- The four hexadecimal digits of `n`, as `\u%04x` prints them. -/
def hex4 (n : Nat) : String :=
  let d (k : Nat) : Char := (Nat.toDigits 16 (k % 16)).headD '0'
  ⟨[d (n / 4096), d (n / 256), d (n / 16), d n]⟩

/-- The tables `lowUnicodeReplacementTable` and `jsStrReplacementTable` of
`html/template`, and the two line separators: the characters `jsStrEscaper`
replaces in a plain string. -/
def jsStrReplacementTable (c : Char) : Option String :=
  match c.toNat with
  | 9 => some "\\t"
  | 10 => some "\\n"
  | 12 => some "\\f"
  | 13 => some "\\r"
  | 34 => some "\\u0022"
  | 38 => some "\\u0026"
  | 39 => some "\\u0027"
  | 43 => some "\\u002b"
  | 47 => some "\\/"
  | 60 => some "\\u003c"
  | 62 => some "\\u003e"
  | 92 => some "\\\\"
  | 96 => some "\\u0060"
  | 8232 => some "\\u2028"
  | 8233 => some "\\u2029"
  | n => if n < 32 then some ("\\u" ++ hex4 n) else none

/-- Replace every character of `s` that `table` lists, keep the others. -/
def replace (table : Char → Option String) (s : String) : String :=
  String.join (s.data.map fun c => (table c).getD (String.singleton c))

/-- The escaper `htmlEscaper` on a plain string. -/
def htmlEscaper (s : String) : String := replace htmlReplacementTable s

/-- The escaper `attrEscaper` on a plain string. -/
def attrEscaper (s : String) : String := replace htmlReplacementTable s

/-- The escaper `jsStrEscaper` on a plain string. -/
def jsStrEscaper (s : String) : String := replace jsStrReplacementTable s

/-- The escaper the escape pass appends to an action in context `c`. -/
def escaper : context → String → String
  | .stateText => htmlEscaper
  | .stateAttr => attrEscaper
  | .stateJSDqStr => jsStrEscaper

/-- What executing one node on `data` writes. -/
def execNode (data : String) : Node → String
  | .TextNode text => text
  | .ActionNode c => escaper c data

/-- What executing a template on `data` writes. -/
def execute : List Node → String → String
  | [], _ => ""
  | n :: t, data => execNode data n ++ execute t data

/-- A text node for the pending literal text `acc`, unless it is empty. -/
def flushText (acc : List Char) (rest : List Node) : List Node :=
  if acc = [] then rest else .TextNode ⟨acc⟩ :: rest

/-- What a template writes when every action is replaced by `v` as it is:
the literal text of the nodes with `v` at each action. With `v` the text of the
action itself this is the template text again. -/
def substitute : List Node → String → String
  | [], _ => ""
  | .TextNode text :: t, v => text ++ substitute t v
  | .ActionNode _ :: t, v => v ++ substitute t v

/-! ### Documents: lexing and the escape pass

The documents covered are HTML with start and end tags, valueless attributes,
double-quoted values of a few plain-text attributes, and `<script>` elements
whose code is made of simple tokens and double-quoted string literals. On such
a document the escape pass rewrites no literal text. Whatever is not covered
(comments, a `<` that starts no tag, other attributes and quoting styles,
`<style>`, `<title>`, `<textarea>`, other JavaScript, actions other than
`{{.}}`) makes `htmlParse` answer `none`, and the engine `htmlTemplate` then
hands the document to an engine it takes as a parameter. -/

/-- A piece of template text: a character of literal text, or the action
`{{.}}`. -/
inductive Item where
  | ch (c : Char)
  | dot
  deriving DecidableEq

/-- The characters of the action `{{.}}`. -/
def dotAction : List Char := ['{', '{', '.', '}', '}']

/-- The lexer of `text/template` on the delimiters `{{` and `}}`: text up to
the next `{{`, then an action; `skip` counts the characters of a recognised
action still to pass over. An action other than `{{.}}` is not covered. -/
def lex : Nat → List Char → Option (List Item)
  | _, [] => some []
  | skip + 1, _ :: rest => lex skip rest
  | 0, c :: rest =>
    if c = '{' ∧ rest.head? = some '{' then
      if rest.take 4 = ['{', '.', '}', '}'] then
        match lex 4 rest with
        | some items => some (.dot :: items)
        | none => none
      else none
    else
      match lex 0 rest with
      | some items => some (.ch c :: items)
      | none => none

/-- The text of a list of pieces, with `v` for every action. -/
def unlex (v : List Char) : List Item → List Char
  | [] => []
  | .ch c :: t => c :: unlex v t
  | .dot :: t => v ++ unlex v t

/-- The element a tag or its content belongs to (`element` of `context.go`):
`<script>`, or an element without special content. -/
inductive element where
  | elementNone
  | elementScript
  deriving DecidableEq

/-- Where the escape pass is in a document, character by character. The
positions with a name of `html/template` are its states; the others are inside
a token that `html/template` reads in one go. -/
inductive position where
  | stateText
  | tagOpen
  | tagClose
  | tagName (close : Bool) (name : List Char)
  | stateTag (e : element)
  | stateAttrName (e : element) (name : List Char)
  | stateAfterName (e : element) (name : List Char)
  | stateBeforeValue (e : element)
  | stateAttr (e : element)
  | stateJS
  | stateJSDqStr
  | scriptEnd (left : List Char)
  deriving DecidableEq

/-- The function `asciiAlpha`. -/
def asciiAlpha (c : Char) : Bool :=
  ('A'.toNat ≤ c.toNat ∧ c.toNat ≤ 'Z'.toNat) ∨ ('a'.toNat ≤ c.toNat ∧ c.toNat ≤ 'z'.toNat)

/-- The function `asciiAlphaNum`. -/
def asciiAlphaNum (c : Char) : Bool :=
  asciiAlpha c ∨ ('0'.toNat ≤ c.toNat ∧ c.toNat ≤ '9'.toNat)

/-- The characters `eatWhiteSpace` passes over. -/
def isSpace (c : Char) : Bool :=
  c = ' ' ∨ c = '\t' ∨ c = '\n' ∨ c = Char.ofNat 12 ∨ c = '\r'

/-- A name in lower case (`strings.ToLower` on an ASCII name). -/
def lower (name : List Char) : String := ⟨name.map Char.toLower⟩

/-- The element of a tag name: none for an end tag, `<script>` by name; the
elements with other special content are not covered. -/
def elementOf (close : Bool) (name : List Char) : Option element :=
  if close then some .elementNone
  else if lower name = "script" then some .elementScript
  else if lower name = "style" ∨ lower name = "textarea" ∨ lower name = "title" then none
  else some .elementNone

/-- The state after the `>` of a tag (`elementContentType`). -/
def contentOf : element → position
  | .elementNone => .stateText
  | .elementScript => .stateJS

/-- Attribute names that `attrType` classifies as plain text
(`contentTypePlain`), so that their value is in `stateAttr`; the attributes
covered. -/
def plainAttrs : List String := ["alt", "class", "id", "lang", "name", "placeholder", "title"]

/-- The position after a tag name or an attribute name has ended at `c`. -/
def afterNameChar (e : element) (name : Option (List Char)) (c : Char) : Option position :=
  if c = '>' then some (contentOf e)
  else if c = '=' then
    match name with
    | some n => if plainAttrs.contains (lower n) then some (.stateBeforeValue e) else none
    | none => none
  else if isSpace c then
    match name with
    | some n => some (.stateAfterName e n)
    | none => some (.stateTag e)
  else none

/-- The characters of JavaScript code covered outside string literals. -/
def jsPlain (c : Char) : Bool :=
  asciiAlphaNum c ∨ isSpace c ∨ c = '.' ∨ c = '=' ∨ c = ';' ∨ c = '_' ∨ c = '(' ∨ c = ')'
    ∨ c = ','

/-- One character of literal text: the position after it, or `none` when the
document is not covered. -/
def step : position → Char → Option position
  | .stateText, c => if c = '<' then some .tagOpen else some .stateText
  | .tagOpen, c =>
    if c = '/' then some .tagClose
    else if asciiAlpha c then some (.tagName false [c]) else none
  | .tagClose, c => if asciiAlpha c then some (.tagName true [c]) else none
  | .tagName close name, c =>
    if asciiAlphaNum c then some (.tagName close (name ++ [c]))
    else
      match elementOf close name with
      | some e => afterNameChar e none c
      | none => none
  | .stateTag e, c =>
    if asciiAlpha c then some (.stateAttrName e [c])
    else afterNameChar e none c
  | .stateAttrName e name, c =>
    if asciiAlphaNum c ∨ c = '-' then some (.stateAttrName e (name ++ [c]))
    else afterNameChar e (some name) c
  | .stateAfterName e name, c =>
    if isSpace c then some (.stateAfterName e name)
    else if asciiAlpha c then some (.stateAttrName e [c])
    else afterNameChar e (some name) c
  | .stateBeforeValue e, c =>
    if isSpace c then some (.stateBeforeValue e)
    else if c = Char.ofNat 34 then some (.stateAttr e) else none
  | .stateAttr e, c => if c = Char.ofNat 34 then some (.stateTag e) else some (.stateAttr e)
  | .stateJS, c =>
    if c = Char.ofNat 34 then some .stateJSDqStr
    else if c = '<' then some (.scriptEnd ['/', 's', 'c', 'r', 'i', 'p', 't', '>'])
    else if jsPlain c then some .stateJS else none
  | .stateJSDqStr, c =>
    if c = Char.ofNat 34 then some .stateJS
    else if c = Char.ofNat 92 ∨ c = '<' then none else some .stateJSDqStr
  | .scriptEnd left, c =>
    match left with
    | [] => none
    | x :: xs => if c = x then (if xs = [] then some .stateText else some (.scriptEnd xs)) else none

/-- The context of an action at a position, when an action there is covered. -/
def contextOf : position → Option context
  | .stateText => some .stateText
  | .stateAttr _ => some .stateAttr
  | .stateJSDqStr => some .stateJSDqStr
  | _ => none

/-- The escape pass over the pieces of a document, from position `p` with
pending literal text `acc`: the nodes of the template, each action with its
context. A template must end in `stateText`. -/
def classify : position → List Char → List Item → Option (List Node)
  | p, acc, [] => if p = .stateText then some (flushText acc []) else none
  | p, acc, .dot :: rest =>
    match contextOf p with
    | none => none
    | some c =>
      match classify p [] rest with
      | none => none
      | some ns => some (flushText acc (.ActionNode c :: ns))
  | p, acc, .ch c :: rest =>
    match step p c with
    | none => none
    | some q => classify q (acc ++ [c]) rest

/-- Parsing and escaping a covered document; `none` when it is not covered. -/
def htmlParse (text : String) : Option (List Node) :=
  match lex 0 text.data with
  | none => none
  | some items => classify .stateText [] items

/-- The engine `html/template`: on a covered document the nodes above, executed
by `execute`; on any other document whatever the engine `other` does. -/
def htmlTemplate {T : Type} (other : TemplateEngine T) : TemplateEngine (List Node ⊕ T) where
  Parse := fun name text =>
    match htmlParse text with
    | some ns => .ok (.inl ns)
    | none =>
      match other.Parse name text with
      | .ok t => .ok (.inr t)
      | .error e => .error e
  Execute := fun t data =>
    match t with
    | .inl ns => .ok (execute ns data)
    | .inr t => other.Execute t data

/-- A value for the engine parameter of `htmlTemplate` in the examples below;
their documents are all covered, so it is never consulted. -/
def notCovered : TemplateEngine Unit where
  Parse := fun _ _ => .error "not covered"
  Execute := fun _ _ => .error "not covered"

/-! ## Concrete inputs -/

/-- A bundle with the entry document and one script. -/
def demoAssets : AssetSource where
  Asset := fun k =>
    if k = "index.html" then .ok "addr=\x7b\x7b.\x7d\x7d"
    else if k = "static/app.js" then .ok "run()"
    else .error "Asset not found"
  AssetInfo := fun k =>
    if k = "index.html" then .ok ⟨"index.html", 1500000000⟩
    else if k = "static/app.js" then .ok ⟨"static/app.js", 1500000001⟩
    else .error "AssetInfo not found"

/-- A `GET` request for `path`, without query, fragment or headers. -/
def get (path : String) : Request := ⟨"GET", ⟨path, "", ""⟩, []⟩

/-- A `HEAD` request for `path`, without query, fragment or headers. -/
def head (path : String) : Request := ⟨"HEAD", ⟨path, "", ""⟩, []⟩

/-- A value for the part of `net/http` left open, for the examples below; their
requests carry no header, so it is never consulted. -/
def wholeContent : NetHTTP := ⟨fun _ _ _ _ content => ⟨StatusOK, content⟩⟩

/-- The variables after a startup with backend address `http://localhost:9080`
on port 8081. -/
def demoGlobals : Globals :=
  ⟨false, "http://localhost:9080", 8081,
    some ⟨"index.html", 1500000000, "addr=http://localhost:9080"⟩⟩

/-- A bundle whose entry document is the empty file. -/
def emptyIndexAssets : AssetSource where
  Asset := fun k => if k = "index.html" then .ok "" else .error "Asset not found"
  AssetInfo := fun k =>
    if k = "index.html" then .ok ⟨"index.html", 1500000000⟩ else .error "AssetInfo not found"

/-- A listener that starts and serves for ever. -/
def listens (_ : String) : Option String := none

/-- A bundle whose entry document has the backend address in an attribute
value and in text. -/
def markupAssets : AssetSource where
  Asset := fun k =>
    if k = "index.html" then
      .ok "<html><body class=\"app\"><p title=\"\x7b\x7b.\x7d\x7d\">Server: \x7b\x7b.\x7d\x7d</p></body></html>"
    else .error "Asset not found"
  AssetInfo := fun k =>
    if k = "index.html" then .ok ⟨"index.html", 1500000000⟩ else .error "AssetInfo not found"

/-- A bundle whose entry document has the backend address in a script. -/
def scriptAssets : AssetSource where
  Asset := fun k =>
    if k = "index.html" then
      .ok "<script>window.SERVER_ADDR = \"\x7b\x7b.\x7d\x7d\";</script>"
    else .error "Asset not found"
  AssetInfo := fun k =>
    if k = "index.html" then .ok ⟨"index.html", 1500000000⟩ else .error "AssetInfo not found"

/-- A `validateAddr` that accepts every address as it is. -/
def acceptAddr (a : String) : String × Option String := (a, none)

/-- The flags of `ratel -addr http://localhost:9080`: the others at their
defaults. -/
def demoFlags : Flags := ⟨false, defaultPort, "http://localhost:9080", false⟩

/-! ## Lemmas on path normalisation -/

theorem hasPrefix_slash (p : String) :
    HasPrefix p "/" = true ↔ ∃ t, p.data = '/' :: t := by
  unfold HasPrefix
  show List.isPrefixOf ['/'] p.data = true ↔ _
  cases p.data with
  | nil => simp [List.isPrefixOf]
  | cons c t =>
    simp only [List.isPrefixOf, Bool.and_true, beq_iff_eq, List.cons.injEq, exists_eq_right']
    exact eq_comm

/-- The key is the path without its leading `/`, or the path itself when it
has none. -/
theorem normalize_spec (p : String) :
    (p.data = '/' :: (normalize p).data) ∨ (p.data.head? ≠ some '/' ∧ normalize p = p) := by
  unfold normalize
  by_cases h : HasPrefix p "/" = true
  · left
    obtain ⟨t, ht⟩ := (hasPrefix_slash p).1 h
    simp [h, sliceFrom, ht]
  · right
    refine ⟨?_, by simp [h]⟩
    intro hh
    apply h
    rw [hasPrefix_slash]
    cases hp : p.data with
    | nil => simp [hp] at hh
    | cons c t => simp [hp] at hh; exact ⟨t, by rw [hh]⟩

/-- The body of `mainHandler` in terms of the key. -/
theorem mainHandler_eq (A : AssetSource) (g : Globals) (r : Request) :
    mainHandler A g r =
      if normalize r.URL.Path = "" ∨ normalize r.URL.Path = indexPath then
        ⟨.serve g.indexContent r, [], g⟩
      else
        match A.Asset (normalize r.URL.Path) with
        | .error _ =>
          ⟨.Error "resource not found" StatusNotFound, [.Asset (normalize r.URL.Path)], g⟩
        | .ok bs =>
          match A.AssetInfo (normalize r.URL.Path) with
          | .error _ =>
            ⟨.Error "resource not found" StatusNotFound,
              [.Asset (normalize r.URL.Path), .AssetInfo (normalize r.URL.Path)], g⟩
          | .ok info =>
            ⟨.ServeContent r info.Name info.ModTime (newBuffer bs),
              [.Asset (normalize r.URL.Path), .AssetInfo (normalize r.URL.Path)], g⟩ :=
  rfl

/-- The four paths whose key is empty or the index name. -/
theorem key_is_index_iff (p : String) :
    (normalize p = "" ∨ normalize p = indexPath) ↔
      (p = "" ∨ p = "/" ∨ p = "index.html" ∨ p = "/index.html") := by
  rcases normalize_spec p with h | ⟨h, hn⟩
  · constructor
    · rintro (hk | hk)
      · right; left
        apply String.ext
        rw [h, hk]
      · right; right; right
        apply String.ext
        rw [h, hk]; rfl
    · rintro (hp | hp | hp | hp)
      · rw [hp] at h; exact absurd h (by decide)
      · left; rw [hp]; decide
      · rw [hp] at h; exact absurd h (by decide)
      · right; rw [hp]; decide
  · rw [hn]
    constructor
    · rintro (hk | hk)
      · exact Or.inl hk
      · exact Or.inr (Or.inr (Or.inl hk))
    · rintro (hp | hp | hp | hp)
      · exact Or.inl hp
      · rw [hp] at h; exact absurd h (by decide)
      · exact Or.inr hp
      · rw [hp] at h; exact absurd h (by decide)

theorem mainHandler_index (A : AssetSource) (g : Globals) (r : Request)
    (h : normalize r.URL.Path = "" ∨ normalize r.URL.Path = indexPath) :
    mainHandler A g r = ⟨.serve g.indexContent r, [], g⟩ := by
  rw [mainHandler_eq, if_pos h]

theorem mainHandler_other (A : AssetSource) (g : Globals) (r : Request)
    (h : ¬(normalize r.URL.Path = "" ∨ normalize r.URL.Path = indexPath)) :
    mainHandler A g r =
      match A.Asset (normalize r.URL.Path) with
      | .error _ =>
        ⟨.Error "resource not found" StatusNotFound, [.Asset (normalize r.URL.Path)], g⟩
      | .ok bs =>
        match A.AssetInfo (normalize r.URL.Path) with
        | .error _ =>
          ⟨.Error "resource not found" StatusNotFound,
            [.Asset (normalize r.URL.Path), .AssetInfo (normalize r.URL.Path)], g⟩
        | .ok info =>
          ⟨.ServeContent r info.Name info.ModTime (newBuffer bs),
            [.Asset (normalize r.URL.Path), .AssetInfo (normalize r.URL.Path)], g⟩ := by
  rw [mainHandler_eq, if_neg h]

/-- The variables `setIndexContent` leaves when it returns. -/
theorem setIndexContent_ok {T : Type} (E : TemplateEngine T) (A : AssetSource)
    (g g₁ : Globals) (h : setIndexContent E A g = (g₁, none)) :
    ∃ bs info tmpl out,
      A.Asset indexPath = .ok bs ∧ A.AssetInfo indexPath = .ok info ∧
      E.Parse indexPath bs = .ok tmpl ∧ E.Execute tmpl g.addr = .ok out ∧
      g₁ = { g with indexContent := some ⟨info.Name, info.ModTime, out⟩ } := by
  unfold setIndexContent at h
  cases hA : A.Asset indexPath with
  | error e => simp [hA] at h
  | ok bs =>
    cases hI : A.AssetInfo indexPath with
    | error e => simp [hA, hI] at h
    | ok info =>
      cases hP : E.Parse indexPath bs with
      | error e => simp [hA, hI, hP] at h
      | ok tmpl =>
        cases hX : E.Execute tmpl g.addr with
        | error e => simp [hA, hI, hP, hX] at h
        | ok out =>
          simp only [hA, hI, hP, hX, Prod.mk.injEq, and_true] at h
          exact ⟨bs, info, tmpl, out, rfl, rfl, hP, hX, h.symm⟩

/-! ## The request handler -/

/-- C1, counterexample. A `HEAD` request for `/` is answered 200 with an
empty body, not with the rendered entry document held in `indexContent`. -/
theorem mainHandler_head_root_has_empty_body :
    (head "/").URL.Path = "/" ∧
    demoGlobals.indexContent
      = some ⟨"index.html", 1500000000, "addr=http://localhost:9080"⟩ ∧
    (mainHandler demoAssets demoGlobals (head "/")).action.respond wholeContent
      = some ⟨200, ""⟩ ∧
    ((mainHandler demoAssets demoGlobals (head "/")).action.respond wholeContent).map
        Response.body ≠ some "addr=http://localhost:9080" := by
  refine ⟨rfl, rfl, by decide, by decide⟩

/-- C1, amended. A request for `/` and a request for `/index.html` with the
same method and headers both end in `indexContent.serve(w, r)`, and get the
same response, body included, for every asset bundle. When the request carries
no precondition or range header that response is 200 with, as body, the bytes
of the record in `indexContent` if the method is not `HEAD`, and no body if it
is; and when the record was published by `setIndexContent` those bytes are the
output of the template parsed from the `index.html` asset and executed on the
backend address. -/
theorem mainHandler_root_and_index_same_body (lib : NetHTTP) (A : AssetSource)
    (g : Globals) (r₁ r₂ : Request)
    (h₁ : r₁.URL.Path = "/") (h₂ : r₂.URL.Path = "/index.html")
    (hm : r₂.Method = r₁.Method) (hh : r₂.Header = r₁.Header) :
    (mainHandler A g r₁).action = .serve g.indexContent r₁ ∧
    (mainHandler A g r₂).action = .serve g.indexContent r₂ ∧
    (mainHandler A g r₁).action.respond lib = (mainHandler A g r₂).action.respond lib ∧
    (mainHandler A g r₁).action.servedBytes = (mainHandler A g r₂).action.servedBytes ∧
    (∀ ic, g.indexContent = some ic →
      (mainHandler A g r₁).action.servedBytes = some ic.bs ∧
      (r₁.negotiates = false → r₁.Method ≠ "HEAD" →
        (mainHandler A g r₁).action.respond lib = some ⟨200, ic.bs⟩ ∧
        (mainHandler A g r₂).action.respond lib = some ⟨200, ic.bs⟩) ∧
      (r₁.negotiates = false → r₁.Method = "HEAD" →
        (mainHandler A g r₁).action.respond lib = some ⟨200, ""⟩ ∧
        (mainHandler A g r₂).action.respond lib = some ⟨200, ""⟩)) ∧
    (∀ (T : Type) (E : TemplateEngine T) (A₀ : AssetSource) (g₀ : Globals),
      setIndexContent E A₀ g₀ = (g, none) →
      ∃ bs tmpl out, A₀.Asset indexPath = .ok bs ∧ E.Parse indexPath bs = .ok tmpl ∧
        E.Execute tmpl g₀.addr = .ok out ∧
        (r₁.negotiates = false → r₁.Method ≠ "HEAD" →
          (mainHandler A g r₁).action.respond lib = some ⟨200, out⟩ ∧
          (mainHandler A g r₂).action.respond lib = some ⟨200, out⟩)) := by
  have e₁ : mainHandler A g r₁ = ⟨.serve g.indexContent r₁, [], g⟩ :=
    mainHandler_index A g r₁ ((key_is_index_iff _).2 (Or.inr (Or.inl h₁)))
  have e₂ : mainHandler A g r₂ = ⟨.serve g.indexContent r₂, [], g⟩ :=
    mainHandler_index A g r₂ ((key_is_index_iff _).2 (Or.inr (Or.inr (Or.inr h₂))))
  have hn : r₂.negotiates = r₁.negotiates := by unfold Request.negotiates; rw [hh]
  have key : ∀ ic, g.indexContent = some ic →
      (Action.serve g.indexContent r₁).servedBytes = some ic.bs ∧
      (r₁.negotiates = false → r₁.Method ≠ "HEAD" →
        (Action.serve g.indexContent r₁).respond lib = some ⟨200, ic.bs⟩ ∧
        (Action.serve g.indexContent r₂).respond lib = some ⟨200, ic.bs⟩) ∧
      (r₁.negotiates = false → r₁.Method = "HEAD" →
        (Action.serve g.indexContent r₁).respond lib = some ⟨200, ""⟩ ∧
        (Action.serve g.indexContent r₂).respond lib = some ⟨200, ""⟩) := by
    intro ic hic
    rw [hic]
    refine ⟨rfl, ?_, ?_⟩
    · intro hneg hmeth
      simp [Action.respond, Action.delegate, content.serve, newBuffer, ServeContent, hn, hm,
        hneg, hmeth, StatusOK]
    · intro hneg hmeth
      simp [Action.respond, Action.delegate, content.serve, newBuffer, ServeContent, hn, hm,
        hneg, hmeth, StatusOK]
  rw [e₁, e₂]
  refine ⟨rfl, rfl, ?_, ?_, key, ?_⟩
  · cases g.indexContent with
    | none => rfl
    | some ic =>
      simp [Action.respond, Action.delegate, content.serve, ServeContent, hn, hm, hh]
  · cases g.indexContent <;> rfl
  · intro T E A₀ g₀ hset
    obtain ⟨bs, info, tmpl, out, hA, _, hP, hX, hg⟩ := setIndexContent_ok E A₀ g₀ g hset
    refine ⟨bs, tmpl, out, hA, hP, hX, ?_⟩
    have hic : g.indexContent = some ⟨info.Name, info.ModTime, out⟩ := by rw [hg]
    exact (key _ hic).2.1

/-- C1, witness: the demo bundle and the two index paths, by `GET`. -/
theorem mainHandler_root_and_index_same_body_witness :
    (get "/").URL.Path = "/" ∧ (get "/index.html").URL.Path = "/index.html" ∧
      (mainHandler demoAssets demoGlobals (get "/")).action.respond wholeContent
        = some ⟨200, "addr=http://localhost:9080"⟩ ∧
      (mainHandler demoAssets demoGlobals (get "/index.html")).action.respond wholeContent
        = some ⟨200, "addr=http://localhost:9080"⟩ :=
  have h := mainHandler_root_and_index_same_body wholeContent demoAssets demoGlobals
    (get "/") (get "/index.html") rfl rfl rfl rfl
  ⟨rfl, rfl, ((h.2.2.2.2.1 _ rfl).2.1 rfl (by decide)).1,
    ((h.2.2.2.2.1 _ rfl).2.1 rfl (by decide)).2⟩

/-- C2, counterexample. For a path the bundle does not hold the body of the
404 response is `resource not found` followed by a newline (19 bytes), not
exactly the string `resource not found`. -/
theorem mainHandler_not_found_body_ends_in_newline :
    (∃ e, demoAssets.Asset (normalize (get "/static/missing.css").URL.Path) = .error e) ∧
    (mainHandler demoAssets demoGlobals (get "/static/missing.css")).action.respond
        wholeContent = some ⟨404, "resource not found\n"⟩ ∧
    ((mainHandler demoAssets demoGlobals (get "/static/missing.css")).action.respond
        wholeContent).map Response.body ≠ some "resource not found" := by
  refine ⟨⟨"Asset not found", rfl⟩, by decide, by decide⟩

/-- C2, amended. When the key is neither empty nor `index.html` and `Asset` or
`AssetInfo` returns an error for it, `mainHandler` answers with
`http.Error(w, "resource not found", 404)`, whatever the error value is: the
response has status 404 and its body is exactly `resource not found` followed
by one newline. -/
theorem mainHandler_not_found (lib : NetHTTP) (A : AssetSource) (g : Globals) (r : Request)
    (hkey : normalize r.URL.Path ≠ "" ∧ normalize r.URL.Path ≠ indexPath)
    (hmiss : (∃ e, A.Asset (normalize r.URL.Path) = .error e) ∨
      (∃ e, A.AssetInfo (normalize r.URL.Path) = .error e)) :
    (mainHandler A g r).action = .Error "resource not found" 404 ∧
    (mainHandler A g r).action.respond lib = some ⟨404, "resource not found\n"⟩ ∧
    (mainHandler A g r).action.servedBytes = none := by
  have hne : ¬(normalize r.URL.Path = "" ∨ normalize r.URL.Path = indexPath) :=
    fun h => h.elim hkey.1 hkey.2
  rw [mainHandler_other A g r hne]
  cases hA : A.Asset (normalize r.URL.Path) with
  | error e => exact ⟨rfl, rfl, rfl⟩
  | ok bs =>
    cases hI : A.AssetInfo (normalize r.URL.Path) with
    | error e => exact ⟨rfl, rfl, rfl⟩
    | ok info =>
      rcases hmiss with ⟨e, he⟩ | ⟨e, he⟩
      · rw [hA] at he; cases he
      · rw [hI] at he; cases he

/-- C3. When the key is neither empty nor `index.html` and both `Asset` and
`AssetInfo` succeed for it, `mainHandler` calls `http.ServeContent` with the
name and the modification time of the metadata and with the bytes `Asset`
returned, as they are (wrapped by `newBuffer`, and nothing else is looked up or
changed on the way). -/
theorem mainHandler_serves_asset (A : AssetSource) (g : Globals) (r : Request)
    (bs : String) (info : FileInfo)
    (hkey : normalize r.URL.Path ≠ "" ∧ normalize r.URL.Path ≠ indexPath)
    (hA : A.Asset (normalize r.URL.Path) = .ok bs)
    (hI : A.AssetInfo (normalize r.URL.Path) = .ok info) :
    (mainHandler A g r).action = .ServeContent r info.Name info.ModTime (newBuffer bs) ∧
    (mainHandler A g r).lookups
      = [.Asset (normalize r.URL.Path), .AssetInfo (normalize r.URL.Path)] ∧
    (mainHandler A g r).action.servedBytes = some bs := by
  have hne : ¬(normalize r.URL.Path = "" ∨ normalize r.URL.Path = indexPath) :=
    fun h => h.elim hkey.1 hkey.2
  rw [mainHandler_other A g r hne, hA, hI]
  exact ⟨rfl, rfl, rfl⟩

/-- C4. Every lookup `mainHandler` makes is for one key, computed from the
URL path alone: the path with its first character removed when that character
is `/`, the path itself otherwise. Nothing else is removed: a second slash,
`..` segments and a trailing slash stay. Requests with the same path make the
same lookups, whatever their method, query, fragment and headers. The path
`/../../etc/passwd` is looked up as `../../etc/passwd` and answered with 404
when `Asset` has no such key. -/
theorem mainHandler_lookup_key (A : AssetSource) (g : Globals) (r : Request) :
    (∀ l ∈ (mainHandler A g r).lookups,
      l = .Asset (normalize r.URL.Path) ∨ l = .AssetInfo (normalize r.URL.Path)) ∧
    (r.URL.Path.data = '/' :: (normalize r.URL.Path).data ∨
      (r.URL.Path.data.head? ≠ some '/' ∧ normalize r.URL.Path = r.URL.Path)) ∧
    (∀ r' : Request, r'.URL.Path = r.URL.Path →
      (mainHandler A g r').lookups = (mainHandler A g r).lookups) ∧
    normalize "//index.html" = "/index.html" ∧
    normalize "/a/../b/" = "a/../b/" ∧
    normalize "/../../etc/passwd" = "../../etc/passwd" ∧
    (r.URL.Path = "/../../etc/passwd" →
      (mainHandler A g r).lookups.head? = some (.Asset "../../etc/passwd") ∧
      ((∃ e, A.Asset "../../etc/passwd" = .error e) →
        (mainHandler A g r).action = .Error "resource not found" 404 ∧
        (mainHandler A g r).lookups = [.Asset "../../etc/passwd"])) := by
  refine ⟨?_, normalize_spec _, ?_, by decide, by decide, by decide, ?_⟩
  · rw [mainHandler_eq]
    split
    · simp
    · cases A.Asset (normalize r.URL.Path) with
      | error e => simp
      | ok bs => cases A.AssetInfo (normalize r.URL.Path) <;> simp
  · intro r' h
    rw [mainHandler_eq, mainHandler_eq, h]
    split
    · rfl
    · cases A.Asset (normalize r.URL.Path) with
      | error e => rfl
      | ok bs => cases A.AssetInfo (normalize r.URL.Path) <;> rfl
  · intro hp
    have hk : normalize r.URL.Path = "../../etc/passwd" := by rw [hp]; decide
    have hne : ¬(normalize r.URL.Path = "" ∨ normalize r.URL.Path = indexPath) := by
      rw [hk]; decide
    rw [mainHandler_other A g r hne, hk]
    constructor
    · cases A.Asset "../../etc/passwd" with
      | error e => rfl
      | ok bs => cases A.AssetInfo "../../etc/passwd" <;> rfl
    · rintro ⟨e, he⟩
      rw [he]
      exact ⟨rfl, rfl⟩

/-- C5. `mainHandler` ends in `indexContent.serve(w, r)` exactly when the key
is empty or equal to `index.html`, that is, for the four paths ``, `/`,
`index.html` and `/index.html`. Then it makes no lookup, so it does the same on
any two asset bundles. For any other key its first step is the lookup
`Asset(key)` and it never calls `serve`; `/Index.html`, `/index.html/` and
`//index.html` are such keys. -/
theorem mainHandler_index_iff (A : AssetSource) (g : Globals) (r : Request) :
    ((∃ c r', (mainHandler A g r).action = .serve c r') ↔
      (normalize r.URL.Path = "" ∨ normalize r.URL.Path = indexPath)) ∧
    ((normalize r.URL.Path = "" ∨ normalize r.URL.Path = indexPath) ↔
      (r.URL.Path = "" ∨ r.URL.Path = "/" ∨ r.URL.Path = "index.html" ∨
        r.URL.Path = "/index.html")) ∧
    ((normalize r.URL.Path = "" ∨ normalize r.URL.Path = indexPath) →
      (mainHandler A g r).action = .serve g.indexContent r ∧
      (mainHandler A g r).lookups = [] ∧
      ∀ A' : AssetSource, mainHandler A' g r = mainHandler A g r) ∧
    (¬(normalize r.URL.Path = "" ∨ normalize r.URL.Path = indexPath) →
      (mainHandler A g r).lookups.head? = some (.Asset (normalize r.URL.Path)) ∧
      ∀ c r', (mainHandler A g r).action ≠ .serve c r') ∧
    ¬(normalize "/Index.html" = "" ∨ normalize "/Index.html" = indexPath) ∧
    ¬(normalize "/index.html/" = "" ∨ normalize "/index.html/" = indexPath) ∧
    ¬(normalize "//index.html" = "" ∨ normalize "//index.html" = indexPath) := by
  have hother : ¬(normalize r.URL.Path = "" ∨ normalize r.URL.Path = indexPath) →
      (mainHandler A g r).lookups.head? = some (.Asset (normalize r.URL.Path)) ∧
      ∀ c r', (mainHandler A g r).action ≠ .serve c r' := by
    intro hne
    rw [mainHandler_other A g r hne]
    cases A.Asset (normalize r.URL.Path) with
    | error e => exact ⟨rfl, fun c r' h => by cases h⟩
    | ok bs =>
      cases A.AssetInfo (normalize r.URL.Path) with
      | error e => exact ⟨rfl, fun c r' h => by cases h⟩
      | ok info => exact ⟨rfl, fun c r' h => by cases h⟩
  refine ⟨⟨?_, ?_⟩, key_is_index_iff _, ?_, hother, by decide, by decide, by decide⟩
  · rintro ⟨c, r', h⟩
    by_contra hne
    exact (hother hne).2 c r' h
  · intro h
    rw [mainHandler_index A g r h]
    exact ⟨_, _, rfl⟩
  · intro h
    rw [mainHandler_index A g r h]
    exact ⟨rfl, rfl, fun A' => mainHandler_index A' g r h⟩

theorem mainHandler_globals (A : AssetSource) (g : Globals) (r : Request) :
    (mainHandler A g r).globals = g := by
  rw [mainHandler_eq]
  split
  · rfl
  · cases A.Asset (normalize r.URL.Path) with
    | error e => rfl
    | ok bs => cases A.AssetInfo (normalize r.URL.Path) <;> rfl

/-- C10. `mainHandler` leaves the package-level variables (`devMode`, `addr`,
`port`, `indexContent`) as it found them, for every request; so the same
request handled any number of times in a row on the same asset bundle gets the
same answer each time, and the variables are still the same afterwards. -/
theorem mainHandler_keeps_globals (A : AssetSource) (g : Globals) (r : Request) :
    (mainHandler A g r).globals = g ∧
    ∀ n : Nat, serveAll A g (List.replicate n r)
      = (List.replicate n (mainHandler A g r).action, g) := by
  refine ⟨mainHandler_globals A g r, fun n => ?_⟩
  induction n with
  | zero => rfl
  | succ n ih =>
    rw [List.replicate_succ, serveAll, mainHandler_globals, ih]
    rfl

/-- C2, witness: a path the demo bundle does not hold. -/
theorem mainHandler_not_found_witness :
    (normalize (get "/static/missing.css").URL.Path ≠ "" ∧
      normalize (get "/static/missing.css").URL.Path ≠ indexPath) ∧
    (mainHandler demoAssets demoGlobals (get "/static/missing.css")).action.respond
        wholeContent = some ⟨404, "resource not found\n"⟩ :=
  ⟨by decide,
    (mainHandler_not_found wholeContent demoAssets demoGlobals (get "/static/missing.css")
      (by decide) (Or.inl ⟨"Asset not found", rfl⟩)).2.1⟩

/-- C3, witness: the script of the demo bundle. -/
theorem mainHandler_serves_asset_witness :
    demoAssets.Asset (normalize (get "/static/app.js").URL.Path) = .ok "run()" ∧
    (mainHandler demoAssets demoGlobals (get "/static/app.js")).action
      = .ServeContent (get "/static/app.js") "static/app.js" 1500000001 (newBuffer "run()") :=
  ⟨rfl,
    (mainHandler_serves_asset demoAssets demoGlobals (get "/static/app.js") "run()"
      ⟨"static/app.js", 1500000001⟩ (by decide) rfl rfl).1⟩


/-! ## Startup -/

/-- C6. `setIndexContent` returns exactly when the four steps succeed, and
then the record it publishes in `indexContent` has the name and the
modification time of the `AssetInfo` metadata of `index.html` and, as bytes,
the output of executing on `addr` the template parsed from the bytes of the
`index.html` asset; the other variables keep their values. -/
theorem setIndexContent_publishes {T : Type} (E : TemplateEngine T) (A : AssetSource)
    (g g₁ : Globals) :
    setIndexContent E A g = (g₁, none) ↔
      ∃ bs info tmpl out,
        A.Asset indexPath = .ok bs ∧ A.AssetInfo indexPath = .ok info ∧
        E.Parse indexPath bs = .ok tmpl ∧ E.Execute tmpl g.addr = .ok out ∧
        g₁.indexContent = some ⟨info.Name, info.ModTime, out⟩ ∧
        g₁.devMode = g.devMode ∧ g₁.addr = g.addr ∧ g₁.port = g.port := by
  constructor
  · intro h
    obtain ⟨bs, info, tmpl, out, hA, hI, hP, hX, hg⟩ := setIndexContent_ok E A g g₁ h
    exact ⟨bs, info, tmpl, out, hA, hI, hP, hX, by rw [hg], by rw [hg], by rw [hg], by rw [hg]⟩
  · rintro ⟨bs, info, tmpl, out, hA, hI, hP, hX, hc, hd, ha, hp⟩
    unfold setIndexContent
    rw [hA]; dsimp only
    rw [hI]; dsimp only
    rw [hP]; dsimp only
    rw [hX]; dsimp only
    cases g₁
    cases g
    simp only at hc hd ha hp
    simp [hc, hd, ha, hp]

/-- C7. `setIndexContent` panics exactly when the `index.html` asset lookup
fails, or its metadata lookup fails, or its bytes do not parse as a template,
or the template does not execute on `addr`. When it panics it leaves every
package-level variable, `indexContent` included, as it found it; and `Run`
then stops with that panic having registered no handler and started no
listener. -/
theorem setIndexContent_panics_iff {T : Type} (E : TemplateEngine T) (A : AssetSource)
    (g : Globals) :
    ((∃ msg, (setIndexContent E A g).2 = some (.Panic msg)) ↔
      ((∃ e, A.Asset indexPath = .error e) ∨
       (∃ e, A.AssetInfo indexPath = .error e) ∨
       (∃ bs e, A.Asset indexPath = .ok bs ∧ E.Parse indexPath bs = .error e) ∨
       (∃ bs tmpl e, A.Asset indexPath = .ok bs ∧ E.Parse indexPath bs = .ok tmpl ∧
          E.Execute tmpl g.addr = .error e))) ∧
    ((setIndexContent E A g).2 = none ∨ ∃ msg, (setIndexContent E A g).2 = some (.Panic msg)) ∧
    ((setIndexContent E A g).2 ≠ none → (setIndexContent E A g).1 = g) ∧
    (∀ (validateAddr : String → String × Option String) (listen : String → Option String)
        (f : Flags) (g₀ : Globals) (out : List Event),
      parseFlags validateAddr f g₀ = ⟨g, out, none⟩ → (setIndexContent E A g).2 ≠ none →
      Run validateAddr listen E A f g₀ = ⟨g, out, (setIndexContent E A g).2⟩ ∧
      (∀ e ∈ (Run validateAddr listen E A f g₀).events, e.serving = false) ∧
      (Run validateAddr listen E A f g₀).globals.indexContent = g₀.indexContent) := by
  have key : ((∃ msg, (setIndexContent E A g).2 = some (.Panic msg)) ↔
      ((∃ e, A.Asset indexPath = .error e) ∨
       (∃ e, A.AssetInfo indexPath = .error e) ∨
       (∃ bs e, A.Asset indexPath = .ok bs ∧ E.Parse indexPath bs = .error e) ∨
       (∃ bs tmpl e, A.Asset indexPath = .ok bs ∧ E.Parse indexPath bs = .ok tmpl ∧
          E.Execute tmpl g.addr = .error e))) ∧
    ((setIndexContent E A g).2 = none ∨ ∃ msg, (setIndexContent E A g).2 = some (.Panic msg)) ∧
    ((setIndexContent E A g).2 ≠ none → (setIndexContent E A g).1 = g) := by
    unfold setIndexContent
    cases hA : A.Asset indexPath with
    | error e => simp
    | ok bs =>
      cases hI : A.AssetInfo indexPath with
      | error e => simp
      | ok info =>
        cases hP : E.Parse indexPath bs with
        | error e => simp [hP]
        | ok tmpl =>
          cases hX : E.Execute tmpl g.addr with
          | error e => simp [hP, hX]
          | ok out => simp [hP, hX]
  refine ⟨key.1, key.2.1, key.2.2, ?_⟩
  intro validateAddr listen f g₀ out hpf hpanic
  have hrun : Run validateAddr listen E A f g₀ = ⟨g, out, (setIndexContent E A g).2⟩ := by
    unfold Run
    rw [hpf]
    dsimp only
    have h1 := key.2.2 hpanic
    cases hs : setIndexContent E A g with
    | mk g₂ h =>
      rw [hs] at h1 hpanic
      cases h with
      | none => exact absurd rfl hpanic
      | some h => simp only at h1; rw [h1]
  have hout : out = [] ∧ g.indexContent = g₀.indexContent := by
    unfold parseFlags at hpf
    split at hpf
    · simp at hpf
    · split at hpf
      · simp at hpf
      · simp only [Ran.mk.injEq, and_true] at hpf
        exact ⟨hpf.2.symm, by rw [← hpf.1]⟩
  rw [hrun]
  refine ⟨rfl, ?_, hout.2⟩
  rw [hout.1]
  intro e he
  cases he

/-- C8, counterexample. With an empty `index.html` asset the renderer does not
fail, `Run` registers `mainHandler` and starts the listener, and the record in
`indexContent` has no bytes. -/
theorem Run_empty_index_serves_empty_bytes :
    Event.Handle "/" .mainHandler
        ∈ (Run acceptAddr listens (htmlTemplate notCovered) emptyIndexAssets demoFlags Globals.zero).events ∧
    Event.ListenAndServe ":8081"
        ∈ (Run acceptAddr listens (htmlTemplate notCovered) emptyIndexAssets demoFlags Globals.zero).events ∧
    (setIndexContent (htmlTemplate notCovered) emptyIndexAssets
        (parseFlags acceptAddr demoFlags Globals.zero).globals).2 = none ∧
    ¬ ∃ c, (Run acceptAddr listens (htmlTemplate notCovered) emptyIndexAssets demoFlags Globals.zero).globals.indexContent
        = some c ∧ c.bs ≠ "" := by
  refine ⟨by decide, by decide, by decide, ?_⟩
  rintro ⟨c, hc, hne⟩
  have h : (Run acceptAddr listens (htmlTemplate notCovered) emptyIndexAssets demoFlags
      Globals.zero).globals.indexContent = some ⟨"index.html", 1500000000, ""⟩ := by decide
  rw [h] at hc
  cases hc
  exact hne rfl

/-- C8, amended. Whenever `Run` registers a handler or starts the listener,
`setIndexContent` has returned before and `indexContent` holds a record (it is
not `nil`): the one rendered from the `index.html` asset, whose bytes are the
output of the template, empty or not. `Run` has not stopped, and `mainHandler`
on the variables `Run` leaves serves that record for the index paths. -/
theorem Run_serving_has_index {T : Type} (validateAddr : String → String × Option String)
    (listen : String → Option String) (E : TemplateEngine T) (A : AssetSource) (f : Flags) (g₀ : Globals)
    (h : ∃ e ∈ (Run validateAddr listen E A f g₀).events, e.serving = true) :
    ∃ bs info tmpl out,
      A.Asset indexPath = .ok bs ∧ A.AssetInfo indexPath = .ok info ∧
      E.Parse indexPath bs = .ok tmpl ∧
      E.Execute tmpl (Run validateAddr listen E A f g₀).globals.addr = .ok out ∧
      (Run validateAddr listen E A f g₀).globals.indexContent
        = some ⟨info.Name, info.ModTime, out⟩ ∧
      (Run validateAddr listen E A f g₀).halt
        = (listen (":" ++ toString (Run validateAddr listen E A f g₀).globals.port)).map
            (fun _ => Halt.Exit 1) ∧
      Event.Handle "/" .mainHandler ∈ (Run validateAddr listen E A f g₀).events ∧
      ∀ (A' : AssetSource) (r : Request),
        normalize r.URL.Path = "" ∨ normalize r.URL.Path = indexPath →
        (mainHandler A' (Run validateAddr listen E A f g₀).globals r).action
          = .serve (some ⟨info.Name, info.ModTime, out⟩) r := by
  obtain ⟨e, he, hs⟩ := h
  unfold Run at he ⊢
  cases hpf : parseFlags validateAddr f g₀ with
  | mk g₁ out₁ halt₁ =>
    have hout : halt₁ = none → out₁ = [] := by
      intro hn
      unfold parseFlags at hpf
      split at hpf
      · simp [hn] at hpf
      · split at hpf
        · simp [hn] at hpf
        · simp only [Ran.mk.injEq] at hpf
          exact hpf.2.1.symm
    have hnoserve : ∀ e ∈ out₁, e.serving = false := by
      intro e he
      unfold parseFlags at hpf
      split at hpf
      · simp only [Ran.mk.injEq] at hpf
        rw [← hpf.2.1] at he
        simp only [List.mem_singleton] at he
        rw [he]; rfl
      · split at hpf
        · simp only [Ran.mk.injEq] at hpf
          rw [← hpf.2.1] at he
          simp only [List.mem_singleton] at he
          rw [he]; rfl
        · simp only [Ran.mk.injEq] at hpf
          rw [← hpf.2.1] at he
          cases he
    rw [hpf] at he
    cases halt₁ with
    | some hh =>
      simp only at he
      rw [hnoserve e he] at hs
      cases hs
    | none =>
      simp only at he ⊢
      cases hset : setIndexContent E A g₁ with
      | mk g₂ p =>
        rw [hset] at he
        cases p with
        | some hh =>
          simp only at he
          rw [hnoserve e he] at hs
          cases hs
        | none =>
          obtain ⟨bs, info, tmpl, out, hA, hI, hP, hX, hg⟩ := setIndexContent_ok E A g₁ g₂ hset
          refine ⟨bs, info, tmpl, out, hA, hI, hP, ?_, ?_, rfl, ?_, ?_⟩
          · simp only [hg]; exact hX
          · simp only [hg]
          · simp
          · intro A' r hr
            rw [mainHandler_index A' _ r hr]
            simp [hg]

/-- C8, witness: the demo bundle started with `-addr http://localhost:9080`. -/
theorem Run_serving_has_index_witness :
    (∃ e ∈ (Run acceptAddr listens (htmlTemplate notCovered) demoAssets demoFlags Globals.zero).events,
      e.serving = true) ∧
    ∃ (info : FileInfo) (out : String),
      (Run acceptAddr listens (htmlTemplate notCovered) demoAssets demoFlags Globals.zero).globals.indexContent
        = some ⟨info.Name, info.ModTime, out⟩ ∧
      (Run acceptAddr listens (htmlTemplate notCovered) demoAssets demoFlags Globals.zero).halt
        = (listens (":" ++ toString
            (Run acceptAddr listens (htmlTemplate notCovered) demoAssets demoFlags
              Globals.zero).globals.port)).map (fun _ => Halt.Exit 1) :=
  ⟨⟨.ListenAndServe ":8081", by decide, rfl⟩,
    let ⟨_, info, _, out, _, _, _, _, hc, hh, _⟩ :=
      Run_serving_has_index acceptAddr listens (htmlTemplate notCovered) demoAssets demoFlags Globals.zero
        ⟨.ListenAndServe ":8081", by decide, rfl⟩
    ⟨info, out, hc, hh⟩⟩

/-! ## The template engine -/

theorem lex_unlex (l : List Char) (k : Nat) (items : List Item)
    (h : lex k l = some items) : unlex dotAction items = l.drop k := by
  induction l generalizing k items with
  | nil =>
    cases k <;> simp only [lex, Option.some.injEq] at h <;> subst h <;> rfl
  | cons c rest ih =>
    cases k with
    | succ k =>
      rw [lex] at h
      rw [List.drop_succ_cons]
      exact ih k items h
    | zero =>
      rw [lex] at h
      rw [List.drop_zero]
      split at h
      · next hc =>
        split at h
        · next ht =>
          cases hl : lex 4 rest with
          | none => rw [hl] at h; cases h
          | some its =>
            rw [hl] at h
            simp only [Option.some.injEq] at h
            subst h
            have hr := ih 4 its hl
            show dotAction ++ unlex dotAction its = c :: rest
            rw [hr, hc.1]
            have := List.take_append_drop 4 rest
            rw [ht] at this
            rw [← this]
            rfl
        · cases h
      · cases hl : lex 0 rest with
        | none => rw [hl] at h; cases h
        | some its =>
          rw [hl] at h
          simp only [Option.some.injEq] at h
          subst h
          have hr := ih 0 its hl
          rw [List.drop_zero] at hr
          show c :: unlex dotAction its = c :: rest
          rw [hr]

theorem substitute_flushText (acc : List Char) (rest : List Node) (v : String) :
    substitute (flushText acc rest) v = ⟨acc⟩ ++ substitute rest v := by
  unfold flushText
  split
  · next h => subst h; exact (String.empty_append _).symm
  · rfl

theorem execute_flushText (acc : List Char) (rest : List Node) (data : String) :
    execute (flushText acc rest) data = ⟨acc⟩ ++ execute rest data := by
  unfold flushText
  split
  · next h => subst h; exact (String.empty_append _).symm
  · rfl

theorem classify_substitute (items : List Item) (p : position) (acc : List Char)
    (ns : List Node) (v : String) (h : classify p acc items = some ns) :
    substitute ns v = ⟨acc ++ unlex v.data items⟩ := by
  induction items generalizing p acc ns with
  | nil =>
    rw [classify] at h
    split at h
    · simp only [Option.some.injEq] at h
      subst h
      rw [substitute_flushText]
      apply String.ext
      simp [substitute, unlex]
    · cases h
  | cons it rest ih =>
    cases it with
    | dot =>
      rw [classify] at h
      cases hc : contextOf p with
      | none => rw [hc] at h; cases h
      | some c =>
        rw [hc] at h
        cases hr : classify p [] rest with
        | none => rw [hr] at h; cases h
        | some ns₁ =>
          rw [hr] at h
          simp only [Option.some.injEq] at h
          subst h
          rw [substitute_flushText, substitute, ih p [] ns₁ hr]
          apply String.ext
          simp [unlex]
    | ch c =>
      rw [classify] at h
      cases hs : step p c with
      | none => rw [hs] at h; cases h
      | some q =>
        rw [hs] at h
        rw [ih q (acc ++ [c]) ns h]
        apply String.ext
        simp [unlex]

/-- The nodes of a covered document, with the action text put back, are the
document. -/
theorem htmlParse_substitute (doc : String) (ns : List Node) (h : htmlParse doc = some ns) :
    substitute ns "\x7b\x7b.\x7d\x7d" = doc := by
  unfold htmlParse at h
  cases hl : lex 0 doc.data with
  | none => rw [hl] at h; cases h
  | some items =>
    rw [hl] at h
    rw [classify_substitute items _ [] ns _ h]
    apply String.ext
    have := lex_unlex doc.data 0 items hl
    rw [List.drop_zero] at this
    show [] ++ unlex dotAction items = doc.data
    rw [this]
    rfl

theorem execute_eq_substitute (ns : List Node) (data : String)
    (h : ∀ c, Node.ActionNode c ∈ ns → escaper c data = data) :
    execute ns data = substitute ns data := by
  induction ns with
  | nil => rfl
  | cons n t ih =>
    have ht : ∀ c, Node.ActionNode c ∈ t → escaper c data = data :=
      fun c hc => h c (List.mem_cons_of_mem n hc)
    cases n with
    | TextNode text => rw [execute, substitute, ih ht]; rfl
    | ActionNode c =>
      rw [execute, substitute, ih ht]
      show escaper c data ++ _ = _
      rw [h c (List.mem_cons_self _ _)]

theorem setIndexContent_htmlTemplate {T : Type} (other : TemplateEngine T) (A : AssetSource)
    (g : Globals) (info : FileInfo) (doc : String) (ns : List Node)
    (hA : A.Asset indexPath = .ok doc) (hI : A.AssetInfo indexPath = .ok info)
    (hdoc : htmlParse doc = some ns) :
    setIndexContent (htmlTemplate other) A g
      = ({ g with indexContent := some ⟨info.Name, info.ModTime, execute ns g.addr⟩ },
          none) := by
  unfold setIndexContent
  rw [hA]; dsimp only
  rw [hI]; dsimp only
  simp only [htmlTemplate, hdoc]

/-- C9, counterexample. In the entry document
`<script>window.SERVER_ADDR = "{{.}}";</script>` the one substitution point is
inside a JavaScript string, and `setIndexContent` with backend address
`http://localhost:9080` publishes the document with `http:\/\/localhost:9080`
there, not with the address character for character. -/
theorem setIndexContent_script_escapes_address :
    scriptAssets.Asset indexPath
      = .ok ("<script>window.SERVER_ADDR = \"" ++ "\x7b\x7b.\x7d\x7d" ++ "\";</script>") ∧
    htmlParse ("<script>window.SERVER_ADDR = \"" ++ "\x7b\x7b.\x7d\x7d" ++ "\";</script>")
      = some [.TextNode "<script>window.SERVER_ADDR = \"", .ActionNode .stateJSDqStr,
          .TextNode "\";</script>"] ∧
    (parseFlags acceptAddr demoFlags Globals.zero).globals.addr = "http://localhost:9080" ∧
    (setIndexContent (htmlTemplate notCovered) scriptAssets
        (parseFlags acceptAddr demoFlags Globals.zero).globals).1.indexContent
      = some ⟨"index.html", 1500000000,
          "<script>window.SERVER_ADDR = \"http:\\/\\/localhost:9080\";</script>"⟩ ∧
    (setIndexContent (htmlTemplate notCovered) scriptAssets
        (parseFlags acceptAddr demoFlags Globals.zero).globals).1.indexContent
      ≠ some ⟨"index.html", 1500000000,
          "<script>window.SERVER_ADDR = \"" ++ "http://localhost:9080" ++ "\";</script>"⟩ := by
  refine ⟨rfl, by decide, rfl, by decide, by decide⟩

/-- C9, amended. For an entry document that `htmlParse` covers, `setIndexContent`
with backend address `http://localhost:9080` publishes what `html/template`
writes, and: the literal text of the template is written unchanged (the nodes
with the action text put back are the document); when no substitution point is
inside a script string, that is, every one sits in HTML text or in a quoted
plain-text attribute value, the output is the template text with every
substitution point replaced by the literal address; in particular so for one
substitution point. A substitution point inside a script string gets the
JavaScript-escaped address `http:\/\/localhost:9080` instead. -/
theorem setIndexContent_renders_address {T : Type} (other : TemplateEngine T)
    (A : AssetSource) (g : Globals) (info : FileInfo) (doc : String) (ns : List Node)
    (hA : A.Asset indexPath = .ok doc) (hI : A.AssetInfo indexPath = .ok info)
    (haddr : g.addr = "http://localhost:9080") (hdoc : htmlParse doc = some ns) :
    setIndexContent (htmlTemplate other) A g
      = ({ g with
            indexContent := some ⟨info.Name, info.ModTime, execute ns "http://localhost:9080"⟩ },
          none) ∧
    substitute ns "\x7b\x7b.\x7d\x7d" = doc ∧
    ((∀ c, Node.ActionNode c ∈ ns → c ≠ .stateJSDqStr) →
      execute ns "http://localhost:9080" = substitute ns "http://localhost:9080") ∧
    (∀ pre c post, ns = [.TextNode pre, .ActionNode c, .TextNode post] →
      doc = pre ++ "\x7b\x7b.\x7d\x7d" ++ post ∧
      (c ≠ .stateJSDqStr →
        execute ns "http://localhost:9080" = pre ++ "http://localhost:9080" ++ post) ∧
      (c = .stateJSDqStr →
        execute ns "http://localhost:9080" = pre ++ "http:\\/\\/localhost:9080" ++ post)) := by
  have hesc : ∀ c : context, c ≠ .stateJSDqStr →
      escaper c "http://localhost:9080" = "http://localhost:9080" := by
    intro c hc
    cases c with
    | stateText => decide
    | stateAttr => decide
    | stateJSDqStr => exact absurd rfl hc
  have hsub := htmlParse_substitute doc ns hdoc
  refine ⟨?_, hsub, ?_, ?_⟩
  · rw [setIndexContent_htmlTemplate other A g info doc ns hA hI hdoc, haddr]
  · intro h
    exact execute_eq_substitute ns _ fun c hc => hesc c (h c hc)
  · intro pre c post hns
    subst hns
    refine ⟨?_, ?_, ?_⟩
    · rw [← hsub]
      show pre ++ ("\x7b\x7b.\x7d\x7d" ++ (post ++ "")) = _
      rw [String.append_empty, String.append_assoc]
    · intro hc
      show pre ++ (escaper c "http://localhost:9080" ++ (post ++ "")) = _
      rw [hesc c hc, String.append_empty, String.append_assoc]
    · intro hc
      subst hc
      show pre ++ (escaper .stateJSDqStr "http://localhost:9080" ++ (post ++ "")) = _
      have : escaper .stateJSDqStr "http://localhost:9080" = "http:\\/\\/localhost:9080" := by
        decide
      rw [this, String.append_empty, String.append_assoc]

/-- C9, witness: a document with the address in an attribute value and in
text. -/
theorem setIndexContent_renders_address_witness :
    htmlParse
        "<html><body class=\"app\"><p title=\"\x7b\x7b.\x7d\x7d\">Server: \x7b\x7b.\x7d\x7d</p></body></html>"
      = some [.TextNode "<html><body class=\"app\"><p title=\"", .ActionNode .stateAttr,
          .TextNode "\">Server: ", .ActionNode .stateText, .TextNode "</p></body></html>"] ∧
    (setIndexContent (htmlTemplate notCovered) markupAssets
        (parseFlags acceptAddr demoFlags Globals.zero).globals).1.indexContent
      = some ⟨"index.html", 1500000000,
          "<html><body class=\"app\"><p title=\"http://localhost:9080\">Server: http://localhost:9080</p></body></html>"⟩ :=
  have h := setIndexContent_renders_address notCovered markupAssets
    (parseFlags acceptAddr demoFlags Globals.zero).globals ⟨"index.html", 1500000000⟩ _
    [.TextNode "<html><body class=\"app\"><p title=\"", .ActionNode .stateAttr,
      .TextNode "\">Server: ", .ActionNode .stateText, .TextNode "</p></body></html>"]
    rfl rfl rfl (by decide)
  ⟨by decide, by rw [h.1, h.2.2.1 (by intro c hc; cases c <;> simp at hc ⊢)]; rfl⟩

end Ratel
